import Mathlib

/-!
Verification development for the `rfm` CLI tool (src/main.rs): a shallow
embedding of its argument validation, the delete-confirmation branch, the
`uninstall` helper, and the two-thread download pipeline of `install`,
together with theorems settling the spec's claims about them.
-/

namespace Rfm

/-! ### Argument model and validation (src/main.rs lines 13-70)

`Args` mirrors the `Args` struct parsed by argh; `validate` mirrors the
`validate` function line by line, including its error messages and the
order of its checks.  Rust's `Result<(), String>` becomes
`Except String Unit`.
-/

structure Args where
  delete : Bool
  install : Bool
  move_file : Bool
  path : String
  move_to : Option String
  url : Option String

/-- The three option checks performed after the mode match in `validate`
(lines 55-67), in the source's order. -/
def validateOpts (args : Args) : Except String Unit :=
  if (args.delete || args.move_file) && args.url.isSome then
    Except.error "delete/move mode does not take a URL"
  else if args.move_file && args.move_to.isNone then
    Except.error "move mode requires --move-to"
  else if args.install && args.url.isNone then
    Except.error "install mode requires a URL"
  else
    Except.ok ()

/-- `validate` (lines 40-70): the mode-exclusivity match followed by the
option checks. -/
def validate (args : Args) : Except String Unit :=
  match args.install, args.delete, args.move_file with
  | true, false, false => validateOpts args
  | false, true, false => validateOpts args
  | false, false, true => validateOpts args
  | false, false, false => Except.error "No action specified"
  | _, _, _ =>
      Except.error "Can only use one of --install, --delete, or --move-file at a time"

/-- The side-effecting action `main` dispatches to after validation
succeeds.  The option payloads are carried as parsed, exactly as `main`
hands them on. -/
inductive Action where
  | installAct (url : Option String) (path : String)
  | deleteAct (path : String)
  | moveAct (path : String) (move_to : Option String)

/-- `main`'s dispatch (lines 245-291): validation runs first and a
validation failure returns an error (non-zero process exit) before any
network or filesystem action is selected; otherwise exactly one of the
three branches is taken, in the source's if/else-if order. -/
def mainAction (args : Args) : Except String Action :=
  match validate args with
  | Except.error e => Except.error e
  | Except.ok _ =>
    if args.install then Except.ok (Action.installAct args.url args.path)
    else if args.delete then Except.ok (Action.deleteAct args.path)
    else Except.ok (Action.moveAct args.path args.move_to)

/-- Number of mode switches set on an invocation. -/
def modeCount (a : Args) : Nat :=
  (cond a.install 1 0) + (cond a.delete 1 0) + (cond a.move_file 1 0)

/-! ### Delete confirmation (src/main.rs lines 263-283) -/

/-- Outcome of the delete branch's confirmation check: `safeExit` means
`main` returns `Ok(())` (process exits zero) without calling `uninstall`;
`runUninstall` means the branch proceeds to `uninstall(path)`. -/
inductive DeleteOutcome where
  | safeExit
  | runUninstall
deriving DecidableEq

/-- Rust's `char::is_whitespace`: the Unicode White_Space property,
i.e. U+0009-U+000D, U+0020, U+0085, U+00A0, U+1680, U+2000-U+200A,
U+2028, U+2029, U+202F, U+205F and U+3000. -/
def rustIsWhitespace (c : Char) : Bool :=
  let n := c.toNat
  n == 0x09 || n == 0x0A || n == 0x0B || n == 0x0C || n == 0x0D || n == 0x20
    || n == 0x85 || n == 0xA0 || n == 0x1680
    || (0x2000 ≤ n && n ≤ 0x200A)
    || n == 0x2028 || n == 0x2029 || n == 0x202F || n == 0x205F || n == 0x3000

/-- Rust's `str::trim` on the character sequence: strip leading and
trailing Unicode whitespace. -/
def trimChars (l : List Char) : List Char :=
  ((l.dropWhile rustIsWhitespace).reverse.dropWhile rustIsWhitespace).reverse

/-- Rust's `confirmation.trim().to_lowercase()` (line 273), modelled on
the character sequence with Lean's per-character lowercasing. -/
def normalizeConfirm (s : String) : List Char :=
  (trimChars s.data).map Char.toLower

/-- The confirmation logic of the delete branch (lines 271-278): the read
line is trimmed and lowercased, and only an exact "n" or "no" aborts. -/
def deleteConfirm (confirmation : String) : DeleteOutcome :=
  let c := normalizeConfirm confirmation
  if c = ['n'] ∨ c = ['n', 'o'] then DeleteOutcome.safeExit
  else DeleteOutcome.runUninstall

/-! ### uninstall (src/main.rs lines 218-243)

The filesystem is abstracted to the two predicates the function queries
on its path argument: `exists()` and `is_file()`. -/

structure PathInfo where
  pathExists : Bool
  isFile : Bool

/-- The single filesystem mutation `uninstall` performs on an existing
path. -/
inductive FsMutation where
  | removeFile
  | removeDirAll
deriving DecidableEq

/-- `uninstall`: a missing path yields an `io::ErrorKind::NotFound` error
(modelled by its message; `main` maps it to a non-zero exit) and no
mutation; an existing regular file is removed with `remove_file`, any
other existing path with `remove_dir_all`. -/
def uninstall (p : PathInfo) : Except String FsMutation :=
  if !p.pathExists then Except.error "path does not exist"
  else if p.isFile then Except.ok FsMutation.removeFile
  else Except.ok FsMutation.removeDirAll

/-! ### The two-thread download pipeline (src/main.rs lines 129-203)

`install` spawns a reader thread and a writer thread over three
`Arc<Mutex<_>>` cells: `buffer: Vec<u8>`, `finished: bool`,
`downloaded: u64`.  We model one download as a small-step interleaving
system.  Bytes are `Nat`; the network stream is a list of the chunks the
successive `response.read` calls return (each read returns one whole
chunk), with `fails = true` meaning the read after the last chunk
returns `Err` instead of 0.  Disk writes are modelled as always
succeeding (`file` is the list of bytes written so far).

Each critical section of the source is one atomic step:
  - reader: append a chunk to the buffer (lines 149-152), then bump the
    counter (lines 154-157); on a 0-byte read, break and set the
    finished flag (lines 160-161) and exit; on a read error, exit with
    that error without touching the flag (the `?` on line 144);
  - writer: drain the buffer to the file if non-empty (lines 179-185,
    the `write_all` happens under the buffer lock), then set the
    progress position from the counter (lines 187-190), then break out
    of the loop iff the finished flag is set (line 192), else yield and
    loop.
-/

/-- Reader thread control point. `count n` sits between appending a
chunk of `n` bytes and adding `n` to the shared counter.  `exited` is a
normal exit (thread joins `Ok`), `errExited` an exit via `?` with a read
error (thread joins `Err`). -/
inductive RPhase where
  | read
  | count (n : Nat)
  | exited
  | errExited
deriving DecidableEq

/-- Writer thread control point, one per critical section of its loop. -/
inductive WPhase where
  | drain
  | progress
  | check
  | exited
deriving DecidableEq

/-- Global state of one download: the unread remainder of the stream,
the three shared cells, the bytes on disk, the progress-bar position,
and the two thread control points. -/
structure St where
  chunks : List (List Nat)
  fails : Bool
  buffer : List Nat
  file : List Nat
  downloaded : Nat
  finished : Bool
  pbPos : Nat
  rph : RPhase
  wph : WPhase
deriving DecidableEq

/-- Initial state of a download of stream `src`. -/
def initSt (src : List (List Nat)) (fails : Bool) : St :=
  { chunks := src, fails := fails, buffer := [], file := [],
    downloaded := 0, finished := false, pbPos := 0,
    rph := RPhase.read, wph := WPhase.drain }

/-- One atomic step of the reader thread (`none` once it has exited). -/
def readerStep (s : St) : Option St :=
  match s.rph with
  | RPhase.exited => none
  | RPhase.errExited => none
  | RPhase.count n => some { s with downloaded := s.downloaded + n, rph := RPhase.read }
  | RPhase.read =>
    match s.chunks with
    | [] =>
      if s.fails then some { s with rph := RPhase.errExited }
      else some { s with finished := true, rph := RPhase.exited }
    | c :: rest =>
      if c.isEmpty then
        some { s with finished := true, rph := RPhase.exited }
      else
        some { s with chunks := rest, buffer := s.buffer ++ c, rph := RPhase.count c.length }

/-- One atomic step of the writer thread (`none` once it has exited).
Note the exit test on `check` looks only at the finished flag, exactly
as line 192 of the source does. -/
def writerStep (s : St) : Option St :=
  match s.wph with
  | WPhase.exited => none
  | WPhase.drain =>
    if s.buffer.isEmpty then some { s with wph := WPhase.progress }
    else some { s with file := s.file ++ s.buffer, buffer := [], wph := WPhase.progress }
  | WPhase.progress => some { s with pbPos := s.downloaded, wph := WPhase.check }
  | WPhase.check =>
    if s.finished then some { s with wph := WPhase.exited }
    else some { s with wph := WPhase.drain }

/-- Schedule one thread (`true` = reader, `false` = writer); a thread
that has exited leaves the state unchanged. -/
def stepOn (who : Bool) (s : St) : St :=
  (if who then readerStep s else writerStep s).getD s

/-- Run a finite schedule. -/
def run (tr : List Bool) (s : St) : St :=
  match tr with
  | [] => s
  | who :: rest => run rest (stepOn who s)

/-- Boolean observation: has the writer thread exited its loop? -/
def wExited (s : St) : Bool :=
  match s.wph with
  | WPhase.exited => true
  | _ => false

/-! ### Theorems -/

/-- C5 counterexample: an install invocation that also passes
`--move-to` sails through `validate`, although `move_to` is present and
the mode is not move.  So validation does not guarantee "move_to present
iff move mode". -/
theorem c5_move_to_not_rejected :
    validate { delete := false, install := true, move_file := false,
               path := "p", move_to := some "q", url := some "u" } = Except.ok ()
    ∧ ({ delete := false, install := true, move_file := false,
         path := "p", move_to := some "q", url := some "u" } : Args).move_to.isSome = true
    ∧ ({ delete := false, install := true, move_file := false,
         path := "p", move_to := some "q", url := some "u" } : Args).move_file = false :=
  ⟨rfl, rfl, rfl⟩

/-- C5 (amended): `validate` accepts an argument vector exactly when
exactly one of install/delete/move is selected, the url is present iff
the mode is install, and move mode has a `--move-to`; `move_to` supplied
in a non-move mode is not rejected. -/
theorem c5_validate_accepts_iff (a : Args) :
    validate a = Except.ok () ↔
      (((a.install = true ∧ a.delete = false ∧ a.move_file = false)
        ∨ (a.install = false ∧ a.delete = true ∧ a.move_file = false)
        ∨ (a.install = false ∧ a.delete = false ∧ a.move_file = true))
       ∧ (a.url.isSome = true ↔ a.install = true)
       ∧ (a.move_file = true → a.move_to.isSome = true)) := by
  rcases a with ⟨d, i, m, p, mt, u⟩
  cases d <;> cases i <;> cases m <;> cases mt <;> cases u <;>
    simp [validate, validateOpts]

/-- C5 amended-theorem witness: the characterization applied to a
concrete accepted argument vector. -/
theorem c5_validate_accepts_iff_witness :
    validate { delete := true, install := false, move_file := false,
               path := "p", move_to := none, url := none } = Except.ok () :=
  (c5_validate_accepts_iff _).mpr (by simp)

/-- C6: an invocation selecting zero mode switches, or two or more,
is rejected by validation, so `main` returns an error (non-zero exit)
and no network or filesystem action is ever selected. -/
theorem c6_mode_violation_rejected (a : Args) (h : modeCount a ≠ 1) :
    ∃ e, mainAction a = Except.error e := by
  rcases a with ⟨d, i, m, p, mt, u⟩
  cases d <;> cases i <;> cases m <;>
    first
      | exact ⟨_, rfl⟩
      | simp [modeCount] at h

/-- C6 witness: all three switches set is rejected. -/
theorem c6_mode_violation_rejected_witness :
    modeCount { delete := true, install := true, move_file := true,
                path := "p", move_to := none, url := none } ≠ 1
    ∧ ∃ e, mainAction { delete := true, install := true, move_file := true,
                        path := "p", move_to := none, url := none } = Except.error e :=
  ⟨by decide,
   c6_mode_violation_rejected
     { delete := true, install := true, move_file := true,
       path := "p", move_to := none, url := none } (by decide)⟩

/-- C8: whenever the confirmation line, trimmed and lowercased, is "n"
or "no", the delete branch takes the safe exit: `uninstall` is never
called and `main` returns `Ok` (exit code zero). -/
theorem c8_refusal_safe_exit (s : String)
    (h : normalizeConfirm s = ['n'] ∨ normalizeConfirm s = ['n', 'o']) :
    deleteConfirm s = DeleteOutcome.safeExit := by
  rcases h with h | h <;> simp [deleteConfirm, h]

/-- C8 witness: the input "N", and "n" padded with a no-break space
(Unicode whitespace that Rust's trim removes), both abort the
deletion. -/
theorem c8_refusal_safe_exit_witness :
    (normalizeConfirm "N" = ['n'] ∧ deleteConfirm "N" = DeleteOutcome.safeExit)
    ∧ (normalizeConfirm "n\u00A0" = ['n']
       ∧ deleteConfirm "n\u00A0" = DeleteOutcome.safeExit) :=
  ⟨⟨by decide, c8_refusal_safe_exit "N" (Or.inl (by decide))⟩,
   ⟨by decide, c8_refusal_safe_exit "n\u00A0" (Or.inl (by decide))⟩⟩

/-- C9: any confirmation line whose trimmed, lowercased form is neither
"n" nor "no" lets the deletion proceed — there is no affirmative
"y"/"yes" check. -/
theorem c9_other_input_proceeds (s : String)
    (h1 : ¬ normalizeConfirm s = ['n']) (h2 : ¬ normalizeConfirm s = ['n', 'o']) :
    deleteConfirm s = DeleteOutcome.runUninstall := by
  simp [deleteConfirm, h1, h2]

/-- C9 witness: both the empty line and "q" proceed to deletion. -/
theorem c9_other_input_proceeds_witness :
    deleteConfirm "" = DeleteOutcome.runUninstall
    ∧ deleteConfirm "q" = DeleteOutcome.runUninstall :=
  ⟨c9_other_input_proceeds "" (by decide) (by decide),
   c9_other_input_proceeds "q" (by decide) (by decide)⟩

/-- C10: `uninstall` on a missing path returns the NotFound error (so
the process exits non-zero) and performs no mutation; on an existing
regular file it removes the file; on any other existing path it removes
recursively. -/
theorem c10_uninstall_cases (p : PathInfo) :
    (p.pathExists = false → uninstall p = Except.error "path does not exist")
    ∧ (p.pathExists = true → p.isFile = true →
         uninstall p = Except.ok FsMutation.removeFile)
    ∧ (p.pathExists = true → p.isFile = false →
         uninstall p = Except.ok FsMutation.removeDirAll) := by
  rcases p with ⟨e, f⟩
  cases e <;> cases f <;> simp [uninstall]

/-- C10 witness: the three cases at concrete paths. -/
theorem c10_uninstall_cases_witness :
    uninstall ⟨false, false⟩ = Except.error "path does not exist"
    ∧ uninstall ⟨true, true⟩ = Except.ok FsMutation.removeFile
    ∧ uninstall ⟨true, false⟩ = Except.ok FsMutation.removeDirAll :=
  ⟨(c10_uninstall_cases ⟨false, false⟩).1 rfl,
   (c10_uninstall_cases ⟨true, true⟩).2.1 rfl rfl,
   (c10_uninstall_cases ⟨true, false⟩).2.2 rfl rfl⟩

/-! #### Interleaving-system lemmas -/

/-- One step of either thread preserves the pipeline identity: the bytes
on disk, then the pending buffer, then the unread remainder of the
stream, concatenate to the whole stream. -/
theorem stepOn_flatten (l : List Nat) (who : Bool) (s : St)
    (h : s.file ++ s.buffer ++ s.chunks.flatten = l) :
    (stepOn who s).file ++ (stepOn who s).buffer ++ (stepOn who s).chunks.flatten = l := by
  rcases s with ⟨chunks, fails, buffer, file, downloaded, finished, pbPos, rph, wph⟩
  simp only at h
  cases who with
  | false =>
    cases wph with
    | drain =>
        by_cases hb : buffer.isEmpty = true
        · simpa [stepOn, writerStep, hb, List.append_assoc] using h
        · simpa [stepOn, writerStep, hb, List.append_assoc] using h
    | progress => simpa [stepOn, writerStep, List.append_assoc] using h
    | check =>
        by_cases hf : finished = true
        · simpa [stepOn, writerStep, hf, List.append_assoc] using h
        · simpa [stepOn, writerStep, hf, List.append_assoc] using h
    | exited => simpa [stepOn, writerStep, List.append_assoc] using h
  | true =>
    cases rph with
    | read =>
        cases chunks with
        | nil =>
            by_cases hf : fails = true
            · simpa [stepOn, readerStep, hf, List.append_assoc] using h
            · simpa [stepOn, readerStep, hf, List.append_assoc] using h
        | cons c rest =>
            by_cases hc : c.isEmpty = true
            · simpa [stepOn, readerStep, hc, List.append_assoc] using h
            · simpa [stepOn, readerStep, hc, List.append_assoc] using h
    | count n => simpa [stepOn, readerStep, List.append_assoc] using h
    | exited => simpa [stepOn, readerStep, List.append_assoc] using h
    | errExited => simpa [stepOn, readerStep, List.append_assoc] using h

/-- The pipeline identity holds after any finite schedule. -/
theorem run_flatten (l : List Nat) (tr : List Bool) (s : St)
    (h : s.file ++ s.buffer ++ s.chunks.flatten = l) :
    (run tr s).file ++ (run tr s).buffer ++ (run tr s).chunks.flatten = l := by
  induction tr generalizing s with
  | nil => exact h
  | cons who rest ih => exact ih (stepOn who s) (stepOn_flatten l who s h)

/-- No step decreases the shared byte counter. -/
theorem stepOn_downloaded_le (who : Bool) (s : St) :
    s.downloaded ≤ (stepOn who s).downloaded := by
  rcases s with ⟨chunks, fails, buffer, file, downloaded, finished, pbPos, rph, wph⟩
  cases who with
  | false =>
    cases wph with
    | drain =>
        by_cases hb : buffer.isEmpty = true
        · simp [stepOn, writerStep, hb]
        · simp [stepOn, writerStep, hb]
    | progress => simp [stepOn, writerStep]
    | check =>
        by_cases hf : finished = true
        · simp [stepOn, writerStep, hf]
        · simp [stepOn, writerStep, hf]
    | exited => simp [stepOn, writerStep]
  | true =>
    cases rph with
    | read =>
        cases chunks with
        | nil =>
            by_cases hf : fails = true
            · simp [stepOn, readerStep, hf]
            · simp [stepOn, readerStep, hf]
        | cons c rest =>
            by_cases hc : c.isEmpty = true
            · simp [stepOn, readerStep, hc]
            · simp [stepOn, readerStep, hc]
    | count n => simp [stepOn, readerStep]
    | exited => simp [stepOn, readerStep]
    | errExited => simp [stepOn, readerStep]

/-- A schedule never decreases the shared byte counter. -/
theorem run_downloaded_le (tr : List Bool) (s : St) :
    s.downloaded ≤ (run tr s).downloaded := by
  induction tr generalizing s with
  | nil => exact Nat.le_refl _
  | cons who rest ih =>
      exact Nat.le_trans (stepOn_downloaded_le who s) (ih (stepOn who s))

/-- One step keeps the progress-bar position at most the counter and
never moves it backwards. -/
theorem stepOn_pb (who : Bool) (s : St) (h : s.pbPos ≤ s.downloaded) :
    (stepOn who s).pbPos ≤ (stepOn who s).downloaded
    ∧ s.pbPos ≤ (stepOn who s).pbPos := by
  rcases s with ⟨chunks, fails, buffer, file, downloaded, finished, pbPos, rph, wph⟩
  simp only at h
  cases who with
  | false =>
    cases wph with
    | drain =>
        by_cases hb : buffer.isEmpty = true
        · simp [stepOn, writerStep, hb]
          all_goals omega
        · simp [stepOn, writerStep, hb]
          all_goals omega
    | progress =>
        simp [stepOn, writerStep]
        all_goals omega
    | check =>
        by_cases hf : finished = true
        · simp [stepOn, writerStep, hf]
          all_goals omega
        · simp [stepOn, writerStep, hf]
          all_goals omega
    | exited =>
        simp [stepOn, writerStep]
        all_goals omega
  | true =>
    cases rph with
    | read =>
        cases chunks with
        | nil =>
            by_cases hf : fails = true
            · simp [stepOn, readerStep, hf]
              all_goals omega
            · simp [stepOn, readerStep, hf]
              all_goals omega
        | cons c rest =>
            by_cases hc : c.isEmpty = true
            · simp [stepOn, readerStep, hc]
              all_goals omega
            · simp [stepOn, readerStep, hc]
              all_goals omega
    | count n =>
        simp [stepOn, readerStep]
        all_goals omega
    | exited =>
        simp [stepOn, readerStep]
        all_goals omega
    | errExited =>
        simp [stepOn, readerStep]
        all_goals omega

/-- A schedule keeps the progress-bar position at most the counter and
never moves it backwards. -/
theorem run_pb (tr : List Bool) (s : St) (h : s.pbPos ≤ s.downloaded) :
    (run tr s).pbPos ≤ (run tr s).downloaded ∧ s.pbPos ≤ (run tr s).pbPos := by
  induction tr generalizing s with
  | nil => exact ⟨h, Nat.le_refl _⟩
  | cons who rest ih =>
      have hs := stepOn_pb who s h
      have hr := ih (stepOn who s) hs.1
      exact ⟨hr.1, Nat.le_trans hs.2 hr.2⟩

/-- Running a concatenated schedule is running its parts in turn. -/
theorem run_append (tr1 tr2 : List Bool) (s : St) :
    run (tr1 ++ tr2) s = run tr2 (run tr1 s) := by
  induction tr1 generalizing s with
  | nil => rfl
  | cons who rest ih => exact ih (stepOn who s)

/-- Invariant for a download whose stream ends in a read error: the
finished flag stays false, the writer never exits, and the unread
chunks stay non-empty. -/
def noFailInv (s : St) : Prop :=
  s.fails = true ∧ s.finished = false ∧ wExited s = false
    ∧ ∀ c ∈ s.chunks, c.isEmpty = false

/-- One step of either thread preserves `noFailInv`. -/
theorem stepOn_noFail (who : Bool) (s : St) (h : noFailInv s) :
    noFailInv (stepOn who s) := by
  obtain ⟨hf, hd, hw, hc⟩ := h
  rcases s with ⟨chunks, fails, buffer, file, downloaded, finished, pbPos, rph, wph⟩
  simp only at hf hd hw hc
  subst hf hd
  cases who with
  | false =>
    cases wph with
    | drain =>
        by_cases hb : buffer.isEmpty = true
        · simp only [stepOn, writerStep, hb, if_true, Option.getD_some, Bool.false_eq_true,
            if_false]
          exact ⟨rfl, rfl, rfl, hc⟩
        · simp only [stepOn, writerStep, hb, if_false, Option.getD_some, Bool.false_eq_true]
          exact ⟨rfl, rfl, rfl, hc⟩
    | progress =>
        simp only [stepOn, writerStep, Option.getD_some, Bool.false_eq_true, if_false]
        exact ⟨rfl, rfl, rfl, hc⟩
    | check =>
        simp only [stepOn, writerStep, Option.getD_some, Bool.false_eq_true, if_false]
        exact ⟨rfl, rfl, rfl, hc⟩
    | exited =>
        simp only [stepOn, writerStep, Option.getD_none, Bool.false_eq_true, if_false]
        exact ⟨rfl, rfl, hw, hc⟩
  | true =>
    cases rph with
    | read =>
        cases chunks with
        | nil =>
            simp only [stepOn, readerStep, if_true, Option.getD_some]
            exact ⟨rfl, rfl, hw, hc⟩
        | cons c rest =>
            have hce : c.isEmpty = false := hc c (List.mem_cons_self c rest)
            simp only [stepOn, readerStep, hce, if_true, Option.getD_some, Bool.false_eq_true,
              if_false]
            exact ⟨rfl, rfl, hw, fun x hx => hc x (List.mem_cons_of_mem c hx)⟩
    | count n =>
        simp only [stepOn, readerStep, if_true, Option.getD_some]
        exact ⟨rfl, rfl, hw, hc⟩
    | exited =>
        simp only [stepOn, readerStep, if_true, Option.getD_none]
        exact ⟨rfl, rfl, hw, hc⟩
    | errExited =>
        simp only [stepOn, readerStep, if_true, Option.getD_none]
        exact ⟨rfl, rfl, hw, hc⟩

/-- A schedule preserves `noFailInv`. -/
theorem run_noFail (tr : List Bool) (s : St) (h : noFailInv s) :
    noFailInv (run tr s) := by
  induction tr generalizing s with
  | nil => exact h
  | cons who rest ih => exact ih (stepOn who s) (stepOn_noFail who s h)

/-! #### Claim theorems about the pipeline -/

/-- C1: under every interleaving of the reader and writer, the bytes on
disk followed by the pending buffer equal exactly the prefix of the
stream received so far, in order: file ++ buffer ++ (unread remainder)
is the whole chunk sequence C1‖...‖Cn, so file ++ buffer is the received
prefix and no reordering is possible. -/
theorem c1_ordering_invariant (src : List (List Nat)) (fl : Bool) (tr : List Bool) :
    (run tr (initSt src fl)).file ++ (run tr (initSt src fl)).buffer
        ++ (run tr (initSt src fl)).chunks.flatten = src.flatten
    ∧ ∃ rest, ((run tr (initSt src fl)).file ++ (run tr (initSt src fl)).buffer) ++ rest
        = src.flatten := by
  have h := run_flatten src.flatten tr (initSt src fl) (by simp [initSt])
  exact ⟨h, ⟨(run tr (initSt src fl)).chunks.flatten, by simpa [List.append_assoc] using h⟩⟩

/-- C2 is violated by the code: with stream chunks [1] and [2] there is
an interleaving in which both threads exit normally (both joins are Ok)
yet the file holds only [1] — the writer saw the finished flag after its
last drain and exited with [2] still pending, so the 2-byte download
produced a 1-byte file. -/
theorem c2_completeness_race :
    (run [true, true, false, false, true, true, true, false]
        (initSt [[1], [2]] false)).rph = RPhase.exited
    ∧ (run [true, true, false, false, true, true, true, false]
        (initSt [[1], [2]] false)).wph = WPhase.exited
    ∧ (run [true, true, false, false, true, true, true, false]
        (initSt [[1], [2]] false)).file = [1]
    ∧ (run [true, true, false, false, true, true, true, false]
        (initSt [[1], [2]] false)).buffer = [2]
    ∧ ([[1], [2]] : List (List Nat)).flatten = [1, 2] := by
  decide

/-- C3 is violated by the code: the writer's exit test (line 192) looks
only at the finished flag, so with stream chunk [7] there is an
interleaving in which the writer exits its loop while [7] is still in
the shared buffer. -/
theorem c3_writer_exits_undrained :
    (run [false, false, true, true, true, false] (initSt [[7]] false)).wph = WPhase.exited
    ∧ (run [false, false, true, true, true, false] (initSt [[7]] false)).buffer = [7]
    ∧ ((run [false, false, true, true, true, false] (initSt [[7]] false)).buffer).isEmpty
        = false := by
  decide

/-- C4: when the stream ends in a read error, under every interleaving
the finished flag is never set and the writer never exits its loop; and
there is a schedule on which the reader exits with the error. -/
theorem c4_reader_failure_unsignalled (src : List (List Nat)) (tr : List Bool)
    (h : ∀ c ∈ src, c.isEmpty = false) :
    ((run tr (initSt src true)).finished = false
      ∧ wExited (run tr (initSt src true)) = false)
    ∧ (run [true, true, true] (initSt [[1]] true)).rph = RPhase.errExited := by
  have hin : noFailInv (initSt src true) := ⟨rfl, rfl, rfl, by simpa [initSt] using h⟩
  have hr := run_noFail tr (initSt src true) hin
  exact ⟨⟨hr.2.1, hr.2.2.1⟩, by decide⟩

/-- C4 witness: a failing two-chunk stream under a concrete schedule. -/
theorem c4_reader_failure_unsignalled_witness :
    (∀ c ∈ ([[1], [2]] : List (List Nat)), c.isEmpty = false)
    ∧ (((run [true, true, false, true, true, true, false, false]
          (initSt [[1], [2]] true)).finished = false
        ∧ wExited (run [true, true, false, true, true, true, false, false]
            (initSt [[1], [2]] true)) = false)
       ∧ (run [true, true, true] (initSt [[1]] true)).rph = RPhase.errExited) :=
  ⟨by decide,
   c4_reader_failure_unsignalled [[1], [2]]
     [true, true, false, true, true, true, false, false] (by decide)⟩

/-- C7: within one transfer the shared byte counter — the value the
progress reporter reads — is non-decreasing along every schedule, and
the progress-bar position set from it never moves backwards either. -/
theorem c7_counter_monotone (src : List (List Nat)) (fl : Bool) (tr extra : List Bool) :
    (run tr (initSt src fl)).downloaded ≤ (run (tr ++ extra) (initSt src fl)).downloaded
    ∧ (run tr (initSt src fl)).pbPos ≤ (run (tr ++ extra) (initSt src fl)).pbPos := by
  rw [run_append]
  refine ⟨run_downloaded_le extra (run tr (initSt src fl)), ?_⟩
  have h0 : (initSt src fl).pbPos ≤ (initSt src fl).downloaded := Nat.le_refl 0
  have h1 := run_pb tr (initSt src fl) h0
  exact (run_pb extra (run tr (initSt src fl)) h1.1).2

end Rfm
